import Mathlib

/-!
Verification of the Atrea RD5 web-API client core against its specification.

The Go source is shallowly embedded: pure functions become Lean functions on
`List Char` / `String` / `ℤ` / `ℚ`, Go's 64-bit `int` overflow is made explicit
with `wrap64`, fallible operations return `Option` or an explicit error value,
and the mutable session state of `WebClient` is passed explicitly.

Go standard-library routines used by the source (`strings.Split`,
`strings.Index`, `strings.TrimSpace`, `strconv.Atoi`, `strconv.Itoa`,
`strconv.ParseFloat`, `crypto/md5`, `net/url.Values.Set`) are embedded
following their documented semantics; ASCII data is assumed, so one `Char`
models one byte.
-/

/-! ## Models of Go string and integer primitives -/

/-- Whitespace predicate used by `strings.TrimSpace`, restricted to the ASCII
white-space characters (the claims only involve ASCII data). -/
def goIsSpace (c : Char) : Bool :=
  c = ' ' || c = '\t' || c = '\n' || c = '\r' || c = Char.ofNat 11 || c = Char.ofNat 12

/-- Model of Go `strings.TrimSpace` on a character list. -/
def goTrimSpace (l : List Char) : List Char :=
  ((l.dropWhile goIsSpace).reverse.dropWhile goIsSpace).reverse

/-- Model of Go `strings.Index hay needle`: index of the first occurrence of
`needle` in `hay`, `none` when absent (Go returns `-1`). -/
def indexOfSub (needle : List Char) : List Char → Option Nat
  | [] => if needle = [] then some 0 else none
  | c :: t =>
    if needle.isPrefixOf (c :: t) then some 0
    else (indexOfSub needle t).map (· + 1)

/-- Model of Go `strings.Split s sep` for a one-character separator: the
maximal sep-free segments of `s`, in order.  `strings.Split "" sep = [""]`. -/
def goSplitChar (sep : Char) : List Char → List (List Char)
  | [] => [[]]
  | c :: rest =>
    if c = sep then [] :: goSplitChar sep rest
    else
      match goSplitChar sep rest with
      | [] => [[c]]
      | g :: gs => (c :: g) :: gs

/-- The ASCII digit character for `d < 10`. -/
def digitChar (d : Nat) : Char := Char.ofNat (48 + d)

/-- Fueled helper for the decimal representation of a natural number (fuel keeps
the recursion structural so that proofs can evaluate it by `decide`). -/
def natReprAux : Nat → Nat → List Char
  | 0, _ => []
  | fuel + 1, n =>
    if n < 10 then [digitChar n]
    else natReprAux fuel (n / 10) ++ [digitChar (n % 10)]

/-- Decimal representation of a natural number, most significant digit first. -/
def natRepr (n : Nat) : List Char := natReprAux (n + 1) n

/-- Model of Go `strconv.Itoa` on a (mathematical) integer. -/
def goItoa (i : Int) : String :=
  if i < 0 then String.mk ('-' :: natRepr (-i).toNat) else String.mk (natRepr i.toNat)

/-- Error discriminator of Go `strconv` parsing: `errSyn` models
`strconv.ErrSyntax`, `errRange` models `strconv.ErrRange`. -/
inductive NumErr where
  | errSyn : NumErr
  | errRange : NumErr
deriving DecidableEq, Repr

/-- Largest Go `uint64` value. -/
def maxUint64 : Nat := 18446744073709551615

/-- Digit-accumulation loop of Go `strconv.ParseUint` (base 10, 64-bit): scans
left to right, fails with a syntax error (value 0) at the first non-digit, and
stops with a range error (value `maxUint64`) as soon as the accumulator would
exceed `maxUint64`. -/
def parseUintLoop : List Char → Nat → Nat × Option NumErr
  | [], n => (n, none)
  | c :: rest, n =>
    if c.isDigit then
      if maxUint64 < n * 10 + (c.toNat - 48) then (maxUint64, some .errRange)
      else parseUintLoop rest (n * 10 + (c.toNat - 48))
    else (0, some .errSyn)

/-- Model of Go `strconv.ParseUint s 10 64`; the empty string is a syntax
error. -/
def goParseUint (l : List Char) : Nat × Option NumErr :=
  match l with
  | [] => (0, some .errSyn)
  | _ => parseUintLoop l 0

/-- Sign handling of Go `strconv.ParseInt`: strips a single leading `+` or
`-`, remembering whether the value is negated. -/
def goAtoiSign (l : List Char) : Bool × List Char :=
  match l with
  | [] => (false, [])
  | c :: r => if c = '+' then (false, r) else if c = '-' then (true, r) else (false, l)

/-- Clamping step of Go `strconv.ParseInt` after the unsigned parse: a syntax
error yields 0, a value outside the `int64` range yields the clamped extreme
with a range error, otherwise the signed value. -/
def goAtoiCore (neg : Bool) (r : Nat × Option NumErr) : Int × Option NumErr :=
  match r.2 with
  | some .errSyn => (0, some .errSyn)
  | _ =>
    if !neg && 9223372036854775808 ≤ r.1 then (9223372036854775807, some .errRange)
    else if neg && 9223372036854775808 < r.1 then (-9223372036854775808, some .errRange)
    else (if neg then -(r.1 : Int) else (r.1 : Int), none)

/-- Model of Go `strconv.Atoi` composed from the sign and unsigned-parse
steps. -/
def goAtoi (l : List Char) : Int × Option NumErr :=
  goAtoiCore (goAtoiSign l).1 (goParseUint (goAtoiSign l).2)

/-- Wraps a mathematical integer into Go's two's-complement 64-bit `int`,
making the overflow of Go `+`, `*` and `<<` explicit. -/
def wrap64 (x : Int) : Int := (x + 9223372036854775808) % 18446744073709551616 - 9223372036854775808

/-- True when every character of `l` is an ASCII digit. -/
def allDigits (l : List Char) : Bool := l.all fun c => c.isDigit

/-- Value of a list of ASCII digits read in base 10. -/
def digitsVal (l : List Char) : Nat := l.foldl (fun n c => n * 10 + (c.toNat - 48)) 0

/-- Model of Go `strconv.ParseFloat s 64` (standard library, outside this
repository), restricted to plain decimal forms: an optional sign and digits
with an optional decimal point.  These values are represented exactly as
rationals; exponent/hex/Inf/NaN syntax and float64 rounding are not modelled,
as no claim depends on them (the device transmits plain decimal values). -/
def parseGoFloat (s : String) : Option ℚ :=
  let p : Bool × List Char :=
    match s.toList with
    | [] => (false, [])
    | c :: r => if c = '-' then (true, r) else if c = '+' then (false, r) else (false, s.toList)
  let q? : Option ℚ :=
    match goSplitChar '.' p.2 with
    | [ds] => if ds ≠ [] ∧ allDigits ds then some ((digitsVal ds : ℚ)) else none
    | [ds, fs] =>
      if (ds ≠ [] ∨ fs ≠ []) ∧ allDigits ds ∧ allDigits fs then
        some ((digitsVal ds : ℚ) + (digitsVal fs : ℚ) / (10 : ℚ) ^ fs.length)
      else none
    | _ => none
  q?.map fun q => if p.1 then -q else q

/-! ## Value Codec (source: `decodeTemperature`, `IPParameterEncoder`,
`IPParameterDecoder` in part_003) -/

/-- Truncation of a rational towards zero, modelling Go's `int(x)` conversion
applied to a `float64`. -/
def ratTruncToInt (q : ℚ) : Int := if q < 0 then -⌊-q⌋ else ⌊q⌋

/-- Embedding of `decodeTemperature` (part_003, lines 209–226): raw register
values 65036–65535 are two's-complement negatives scaled by 10, values 1–1300
are positives scaled by 10, everything else decodes to 0.  Rationals stand for
Go's `float64`; every value produced here is a small multiple of 1/10, on which
`float64` arithmetic is exact up to the usual binary reading of decimals. -/
def decodeTemperature (rawValue : ℚ) : ℚ :=
  if 65036 ≤ ratTruncToInt rawValue then ((ratTruncToInt rawValue : ℚ) - 65536) / 10
  else if 1 ≤ ratTruncToInt rawValue ∧ ratTruncToInt rawValue ≤ 1300 then
    (ratTruncToInt rawValue : ℚ) / 10
  else 0

/-- Result map of `IPParameterEncoder`: the Go code returns a
`map[string]string` with exactly the keys `"low"` and `"high"`. -/
structure IPParts where
  low : String
  high : String
deriving DecidableEq, Repr

/-- Embedding of `IPParameterEncoder` (part_003, lines 302–323).  Splits on
`'.'`; a part count other than four yields `(nil, nil)` — no error value.  Each
part goes through `strconv.Atoi` with the error ignored, so the value component
(0 on syntax error, clamped extreme on range error) is used as the octet.
`wrap64` makes the Go `int` overflow of `<< 8` and `+` explicit. -/
def IPParameterEncoder (ip : String) : Option IPParts × Option Unit :=
  let parts := goSplitChar '.' ip.toList
  if parts.length ≠ 4 then (none, none)
  else
    let octets := parts.map fun p => (goAtoi p).1
    let low := wrap64 (octets.getD 0 0 + wrap64 (octets.getD 1 0 * 256))
    let high := wrap64 (octets.getD 2 0 + wrap64 (octets.getD 3 0 * 256))
    (some ⟨goItoa low, goItoa high⟩, none)

/-- Embedding of `IPParameterDecoder` (part_003, lines 326–334): recovers the
four octets of the two 16-bit halves with `& 0xFF` masks and `>> 8` shifts
(`Int.land` / `Int.shiftRight` model Go's `&` / `>>` on `int`). -/
def IPParameterDecoder (low high : Int) : String :=
  goItoa (Int.land low 255) ++ "." ++ goItoa (Int.land (Int.shiftRight low 8) 255) ++ "." ++
    goItoa (Int.land high 255) ++ "." ++ goItoa (Int.land (Int.shiftRight high 8) 255)

/-! ## Snapshot Parser (source: `ParseXMLData` in part_003) -/

/-- Parse result of Go `encoding/xml` for a snapshot document (the anonymous
struct of `ParseXMLData`): the `(I, V)` attribute pairs of the `O` items of the
four sections, in document order.  The generic XML reader itself is Go standard
library and is abstracted: a document accepted by it is represented by the four
item lists it yields. -/
structure RD5Doc where
  integerR : List (String × String)
  stringR : List (String × String)
  floatR : List (String × String)
  enumR : List (String × String)

/-- Embedding of the `DeviceData` item map (a Go `map[string]string`). -/
structure DeviceData where
  Items : String → Option String

/-- One Go map assignment `m[k] = v`. -/
def mapSet (m : String → Option String) (kv : String × String) : String → Option String :=
  fun k => if k = kv.1 then some kv.2 else m k

/-- Embedding of `ParseXMLData` (part_003, lines 52–76): the four section item
lists are written into one map, section after section, so a later section
overwrites an earlier one on a shared identifier. -/
def ParseXMLData (doc : RD5Doc) : DeviceData :=
  let m0 : String → Option String := fun _ => none
  let m1 := doc.integerR.foldl mapSet m0
  let m2 := doc.stringR.foldl mapSet m1
  let m3 := doc.floatR.foldl mapSet m2
  let m4 := doc.enumR.foldl mapSet m3
  ⟨m4⟩

/-- Value of the last binding of `k` in an association list, if any. -/
def lookupLast (l : List (String × String)) (k : String) : Option String :=
  (l.reverse.find? fun p => p.1 == k).map fun p => p.2

/-- The `RD5Doc` that Go `encoding/xml` produces for the sample document
`<RD5WEB><RD5><INTEGER_R><O I="I10215" V="201"/></INTEGER_R></RD5></RD5WEB>`:
one integer item, all other sections empty. -/
def sampleDoc : RD5Doc := ⟨[("I10215", "201")], [], [], []⟩

/-- The `RD5Doc` of a document placing identifier `X` in the integer section
with value `"1"` and in the enumerated section with value `"2"`. -/
def precedenceDoc : RD5Doc := ⟨[("X", "1")], [], [], [("X", "2")]⟩

/-! ## Parameter Catalog (source: `GetCurrentTemperature` in part_003) -/

/-- Candidate identifier list of `GetCurrentTemperature` (part_003, line 173). -/
def tempIDs : List String := ["I10215", "I10222", "I10224", "I10225", "I10249"]

/-- Loop body of `GetCurrentTemperature`: the first candidate identifier that
is present in the snapshot with a value `strconv.ParseFloat` accepts. -/
def firstTempReading (d : DeviceData) : List String → Option ℚ
  | [] => none
  | id :: rest =>
    match d.Items id with
    | some v =>
      match parseGoFloat v with
      | some q => some q
      | none => firstTempReading d rest
    | none => firstTempReading d rest

/-- Embedding of `GetCurrentTemperature` (part_003, lines 172–185): decode of
the first readable candidate, 0 when none is readable. -/
def GetCurrentTemperature (d : DeviceData) : ℚ :=
  match firstTempReading d tempIDs with
  | some q => decodeTemperature q
  | none => 0

/-! ## Session Client (source: `Login`, `SetValue`, `SetMultipleValues` in
API.md, lines 338–452) -/

/-- Session-relevant state of the Go `WebClient` struct: the base URL and the
stored session token (`auth`, empty when unauthenticated). -/
structure WebClient where
  baseURL : String
  auth : String
deriving DecidableEq, Repr

/-- Extraction step of `Login` (API.md, lines 370–375): trim the body, locate
`<root`, the `>` closing its opening tag, and `</root>`, and return the
trimmed text strictly between them (requiring the content to start before the
close tag), without the validity checks. -/
def rootInnerText (body : String) : Option String :=
  let s := goTrimSpace body.toList
  match indexOfSub ("<root".toList) s with
  | none => none
  | some rootStart =>
    match indexOfSub ['>'] (s.drop rootStart) with
    | none => none
    | some gt =>
      let start := rootStart + gt + 1
      match indexOfSub ("</root>".toList) s with
      | none => none
      | some endTag =>
        if start < endTag then some (String.mk (goTrimSpace ((s.take endTag).drop start)))
        else none

/-- Validity check of `Login` (API.md, lines 376–378): the extracted session id
must be non-empty, not `"0"`, not `"denied"`, and accepted by `strconv.Atoi`. -/
def validSessionID (sid : String) : Bool :=
  sid ≠ "" && sid ≠ "0" && sid ≠ "denied" && (goAtoi sid.toList).2 = none

/-- Session id extracted by `Login` from a response body, `none` when the body
yields no valid id. -/
def extractSessionID (body : String) : Option String :=
  match rootInnerText body with
  | some sid => if validSessionID sid then some sid else none
  | none => none

/-- Outcome of `Login`: a session id, or the `authentication failed` error. -/
inductive LoginResult where
  | ok : String → LoginResult
  | authenticationError : LoginResult
deriving DecidableEq, Repr

/-- Embedding of `Login` (API.md, lines 338–389) from the response body on: on
a valid extracted id the id is stored in `auth` and returned, otherwise the
client fails with an authentication error and is left unchanged. -/
def Login (wc : WebClient) (responseBody : String) : LoginResult × WebClient :=
  match extractSessionID responseBody with
  | some sid => (.ok sid, ⟨wc.baseURL, sid⟩)
  | none => (.authenticationError, wc)

/-- One Go `url.Values.Set k v`: the query maps `k` to `v`, replacing any
previous binding. -/
def setKV (q : String → Option String) (k v : String) : String → Option String :=
  fun x => if x = k then some v else q x

/-- Query string built by `SetValue` (API.md, lines 410–415): `auth` plus the
two halves of `parameter` split on `'='`.  `strings.Split(parameter, "=")[1]`
panics (index out of range) when the split has fewer than two elements; the
panic is modelled as `none`. -/
def setValueQuery (auth parameter : String) : Option (String → Option String) :=
  let parts := goSplitChar '=' parameter.toList
  match parts.get? 1 with
  | none => none
  | some p1 => some (setKV (setKV (fun _ => none) "auth" auth) (String.mk (parts.getD 0 [])) (String.mk p1))

/-- Query string built by `SetMultipleValues` (API.md, lines 430–441): `auth`,
then each parameter that splits on `'='` into exactly two parts; any other
entry is skipped without an error. -/
def setMultipleQuery (auth : String) (parameters : List String) : String → Option String :=
  parameters.foldl
    (fun q param =>
      let parts := goSplitChar '=' param.toList
      if parts.length = 2 then setKV q (String.mk (parts.getD 0 [])) (String.mk (parts.getD 1 [])) else q)
    (setKV (fun _ => none) "auth" auth)

/-- Outcome of a set-parameter request. -/
inductive SetResult where
  | ok : SetResult
  | deviceRejected : Nat → SetResult
deriving DecidableEq, Repr

/-- Status handling of `SetValue` (API.md, lines 421–425): any response status
other than `http.StatusOK` (200) is the `failed to set value` error. -/
def setValueStatusResult (status : Nat) : SetResult :=
  if status ≠ 200 then .deviceRejected status else .ok

/-- Status handling of `SetMultipleValues` (API.md, lines 447–451): any
response status other than `http.StatusOK` (200) is the error. -/
def setMultipleStatusResult (status : Nat) : SetResult :=
  if status ≠ 200 then .deviceRejected status else .ok

/-! ## MD5 (model of Go `crypto/md5`, used by `Login` for the magic digest) -/

/-- Two to the 32nd power, the modulus of MD5 word arithmetic. -/
def M32 : Nat := 4294967296

/-- The 64 MD5 round constants (RFC 1321). -/
def md5K : List Nat :=
  [0xd76aa478, 0xe8c7b756, 0x242070db, 0xc1bdceee,
   0xf57c0faf, 0x4787c62a, 0xa8304613, 0xfd469501,
   0x698098d8, 0x8b44f7af, 0xffff5bb1, 0x895cd7be,
   0x6b901122, 0xfd987193, 0xa679438e, 0x49b40821,
   0xf61e2562, 0xc040b340, 0x265e5a51, 0xe9b6c7aa,
   0xd62f105d, 0x02441453, 0xd8a1e681, 0xe7d3fbc8,
   0x21e1cde6, 0xc33707d6, 0xf4d50d87, 0x455a14ed,
   0xa9e3e905, 0xfcefa3f8, 0x676f02d9, 0x8d2a4c8a,
   0xfffa3942, 0x8771f681, 0x6d9d6122, 0xfde5380c,
   0xa4beea44, 0x4bdecfa9, 0xf6bb4b60, 0xbebfbc70,
   0x289b7ec6, 0xeaa127fa, 0xd4ef3085, 0x04881d05,
   0xd9d4d039, 0xe6db99e5, 0x1fa27cf8, 0xc4ac5665,
   0xf4292244, 0x432aff97, 0xab9423a7, 0xfc93a039,
   0x655b59c3, 0x8f0ccc92, 0xffeff47d, 0x85845dd1,
   0x6fa87e4f, 0xfe2ce6e0, 0xa3014314, 0x4e0811a1,
   0xf7537e82, 0xbd3af235, 0x2ad7d2bb, 0xeb86d391]

/-- The 64 MD5 per-round left-rotation amounts. -/
def md5S : List Nat :=
  [7, 12, 17, 22, 7, 12, 17, 22, 7, 12, 17, 22, 7, 12, 17, 22,
   5, 9, 14, 20, 5, 9, 14, 20, 5, 9, 14, 20, 5, 9, 14, 20,
   4, 11, 16, 23, 4, 11, 16, 23, 4, 11, 16, 23, 4, 11, 16, 23,
   6, 10, 15, 21, 6, 10, 15, 21, 6, 10, 15, 21, 6, 10, 15, 21]

/-- Left rotation of a 32-bit word by `s` places. -/
def rotl32 (x s : Nat) : Nat := ((x <<< s) % M32) ||| (x >>> (32 - s))

/-- The MD5 round mixing function (F, G, H, I depending on the round index);
complement is expressed as xor with the all-ones word. -/
def md5F (b c d i : Nat) : Nat :=
  if i < 16 then (b &&& c) ||| ((b ^^^ (M32 - 1)) &&& d)
  else if i < 32 then (d &&& b) ||| ((d ^^^ (M32 - 1)) &&& c)
  else if i < 48 then b ^^^ c ^^^ d
  else c ^^^ (b ||| (d ^^^ (M32 - 1)))

/-- The MD5 message-word schedule index for round `i`. -/
def md5G (i : Nat) : Nat :=
  if i < 16 then i
  else if i < 32 then (5 * i + 1) % 16
  else if i < 48 then (3 * i + 5) % 16
  else (7 * i) % 16

/-- Little-endian 32-bit word `j` of a 64-byte block. -/
def leWord (block : List Nat) (j : Nat) : Nat :=
  block.getD (4 * j) 0 + 256 * block.getD (4 * j + 1) 0 +
    65536 * block.getD (4 * j + 2) 0 + 16777216 * block.getD (4 * j + 3) 0

/-- One MD5 round on the state `(a, b, c, d)`. -/
def md5Step (block : List Nat) (st : Nat × Nat × Nat × Nat) (i : Nat) : Nat × Nat × Nat × Nat :=
  let f := (md5F st.2.1 st.2.2.1 st.2.2.2 i + st.1 + md5K.getD i 0 + leWord block (md5G i)) % M32
  (st.2.2.2, (st.2.1 + rotl32 f (md5S.getD i 0)) % M32, st.2.1, st.2.2.1)

/-- Processing of one 64-byte block: 64 rounds, then addition into the incoming
state. -/
def md5Block (st0 : Nat × Nat × Nat × Nat) (block : List Nat) : Nat × Nat × Nat × Nat :=
  let r := (List.range 64).foldl (md5Step block) st0
  ((st0.1 + r.1) % M32, (st0.2.1 + r.2.1) % M32,
   (st0.2.2.1 + r.2.2.1) % M32, (st0.2.2.2 + r.2.2.2) % M32)

/-- The four little-endian bytes of a 32-bit word. -/
def leBytes4 (n : Nat) : List Nat := [n % 256, n / 256 % 256, n / 65536 % 256, n / 16777216 % 256]

/-- The eight little-endian bytes of a 64-bit length field. -/
def leBytes8 (n : Nat) : List Nat := leBytes4 (n % M32) ++ leBytes4 (n / M32)

/-- MD5 padding: a `0x80` byte, zeros up to 56 modulo 64, then the bit length
as a little-endian 64-bit value. -/
def md5Pad (msg : List Nat) : List Nat :=
  msg ++ [0x80] ++ List.replicate ((119 - msg.length % 64) % 64) 0 ++ leBytes8 (8 * msg.length)

/-- Fueled split of a byte list into 64-byte blocks. -/
def chunks64Aux : Nat → List Nat → List (List Nat)
  | 0, _ => []
  | _, [] => []
  | fuel + 1, l => l.take 64 :: chunks64Aux fuel (l.drop 64)

/-- Split of a byte list into consecutive 64-byte blocks. -/
def chunks64 (l : List Nat) : List (List Nat) := chunks64Aux l.length l

/-- The MD5 initial state. -/
def md5Init : Nat × Nat × Nat × Nat := (0x67452301, 0xefcdab89, 0x98badcfe, 0x10325476)

/-- The 16-byte MD5 digest of a byte sequence. -/
def md5Bytes (msg : List Nat) : List Nat :=
  let r := (chunks64 (md5Pad msg)).foldl md5Block md5Init
  leBytes4 r.1 ++ leBytes4 r.2.1 ++ leBytes4 r.2.2.1 ++ leBytes4 r.2.2.2

/-- Lowercase hexadecimal digit for `n < 16`. -/
def hexDigit (n : Nat) : Char := if n < 10 then Char.ofNat (48 + n) else Char.ofNat (87 + n)

/-- Two lowercase hexadecimal digits of a byte. -/
def byteHex (b : Nat) : List Char := [hexDigit (b / 16), hexDigit (b % 16)]

/-- Lowercase hexadecimal MD5 digest of a byte sequence, as rendered by Go's
`fmt.Sprintf("%x", hash.Sum(nil))`. -/
def md5Hex (msg : List Nat) : String := String.mk ((md5Bytes msg).map byteHex).flatten

/-- Bytes of an ASCII string (the UTF-8 bytes, for the ASCII data used here). -/
def asciiBytes (s : String) : List Nat := s.toList.map Char.toNat

/-- The `magic` digest sent by `Login` (API.md, lines 341–343): the lowercase
hex MD5 of the literal string `CR LF` followed by the password. -/
def loginMagic (password : String) : String := md5Hex (asciiBytes ("\r\n" ++ password))

/-! ## Helper lemmas -/

lemma ratTruncToInt_natCast (n : ℕ) : ratTruncToInt (n : ℚ) = n := by
  unfold ratTruncToInt
  rw [if_neg (by exact not_lt.2 (by positivity))]
  exact_mod_cast Int.floor_natCast n

lemma decodeTemperature_natCast (n : ℕ) :
    decodeTemperature (n : ℚ) =
      if 65036 ≤ n then ((n : ℚ) - 65536) / 10
      else if 1 ≤ n ∧ n ≤ 1300 then (n : ℚ) / 10
      else 0 := by
  unfold decodeTemperature
  rw [ratTruncToInt_natCast]
  by_cases h1 : 65036 ≤ n
  · rw [if_pos (by exact_mod_cast h1), if_pos h1]
    push_cast
    ring
  · rw [if_neg (by exact_mod_cast h1), if_neg h1]
    by_cases h2 : 1 ≤ n ∧ n ≤ 1300
    · rw [if_pos ⟨by exact_mod_cast h2.1, by exact_mod_cast h2.2⟩, if_pos h2]
      push_cast
      ring
    · rw [if_neg (by exact_mod_cast h2), if_neg h2]

/-! ## C1: temperature decode -/

/-- C1: for every raw register value in [0, 65535], temperature decode returns
(raw − 65536)/10 when raw ≥ 65036, raw/10 when 1 ≤ raw ≤ 1300, and exactly 0
otherwise; in particular decode 1 = 0.1, decode 1300 = 130, decode 1301 = 0,
decode 0 = 0, decode 65036 = −50, decode 65535 = −0.1, decode 65526 = −1. -/
theorem C1_decodeTemperature_spec (raw : ℕ) (hraw : raw ≤ 65535) :
    (65036 ≤ raw → decodeTemperature (raw : ℚ) = ((raw : ℚ) - 65536) / 10) ∧
    (1 ≤ raw → raw ≤ 1300 → decodeTemperature (raw : ℚ) = (raw : ℚ) / 10) ∧
    (raw = 0 ∨ (1301 ≤ raw ∧ raw ≤ 65035) → decodeTemperature (raw : ℚ) = 0) ∧
    decodeTemperature 1 = 1 / 10 ∧
    decodeTemperature 1300 = 130 ∧
    decodeTemperature 1301 = 0 ∧
    decodeTemperature 0 = 0 ∧
    decodeTemperature 65036 = -50 ∧
    decodeTemperature 65535 = -(1 / 10) ∧
    decodeTemperature 65526 = -1 := by
  refine ⟨fun h => ?_, fun h1 h2 => ?_, fun h => ?_, ?_, ?_, ?_, ?_, ?_, ?_, ?_⟩
  · rw [decodeTemperature_natCast, if_pos h]
  · rw [decodeTemperature_natCast, if_neg (by omega), if_pos ⟨h1, h2⟩]
  · rw [decodeTemperature_natCast, if_neg (by omega), if_neg (by omega)]
  · rw [show (1 : ℚ) = ((1 : ℕ) : ℚ) by norm_num, decodeTemperature_natCast]
    norm_num
  · rw [show (1300 : ℚ) = ((1300 : ℕ) : ℚ) by norm_num, decodeTemperature_natCast]
    norm_num
  · rw [show (1301 : ℚ) = ((1301 : ℕ) : ℚ) by norm_num, decodeTemperature_natCast]
    norm_num
  · rw [show (0 : ℚ) = ((0 : ℕ) : ℚ) by norm_num, decodeTemperature_natCast]
    norm_num
  · rw [show (65036 : ℚ) = ((65036 : ℕ) : ℚ) by norm_num, decodeTemperature_natCast]
    norm_num
  · rw [show (65535 : ℚ) = ((65535 : ℕ) : ℚ) by norm_num, decodeTemperature_natCast]
    norm_num
  · rw [show (65526 : ℚ) = ((65526 : ℕ) : ℚ) by norm_num, decodeTemperature_natCast]
    norm_num

/-- Witness for C1 at raw = 65036. -/
theorem C1_witness :
    (65036 : ℕ) ≤ 65535 ∧ decodeTemperature ((65036 : ℕ) : ℚ) = (((65036 : ℕ) : ℚ) - 65536) / 10 :=
  ⟨by decide, (C1_decodeTemperature_spec 65036 (by decide)).1 (by decide)⟩

/-! ## C3: login magic digest -/

set_option maxRecDepth 200000 in
/-- C3: for every password p, Authenticate sends a magic digest equal to the
lowercase hexadecimal MD5 of the two bytes 0x0D 0x0A followed by p's bytes;
for the fixed vector password "6378" the digest sent is
993278d1925c378ab94a6fe664ea6c60. -/
theorem C3_login_magic :
    (∀ p : String, loginMagic p = md5Hex (0x0D :: 0x0A :: asciiBytes p)) ∧
    loginMagic "6378" = "993278d1925c378ab94a6fe664ea6c60" := by
  constructor
  · intro p
    have h : ("\r\n" ++ p).toList = '\r' :: '\n' :: p.toList := by
      show ("\r\n" ++ p).data = '\r' :: '\n' :: p.data
      rw [String.data_append]
      rfl
    simp [loginMagic, asciiBytes, h]
  · decide

/-! ## C7: set-parameter status handling (corrected) -/

/-- C7 counterexample: 204 is a 2xx HTTP status, yet both SetValue and
SetMultipleValues fail with the device-rejected error on it, so the operations
do not succeed on every 2xx status. -/
theorem C7_counterexample :
    ((200 : Nat) ≤ 204 ∧ (204 : Nat) ≤ 299) ∧
    setValueStatusResult 204 = .deviceRejected 204 ∧
    setMultipleStatusResult 204 = .deviceRejected 204 := by
  decide

/-- C7 (amended): a single or batched set-parameter request succeeds exactly
when the device answers with HTTP status 200, and fails with the
device-rejected error on every other status (including other 2xx statuses). -/
theorem C7_amended (status : Nat) :
    (setValueStatusResult status = .ok ↔ status = 200) ∧
    (setMultipleStatusResult status = .ok ↔ status = 200) ∧
    (status ≠ 200 →
      setValueStatusResult status = .deviceRejected status ∧
      setMultipleStatusResult status = .deviceRejected status) := by
  unfold setValueStatusResult setMultipleStatusResult
  by_cases h : status = 200 <;> simp [h]

/-- Witness for C7 at status 500. -/
theorem C7_witness :
    setValueStatusResult 500 = .deviceRejected 500 ∧
    setMultipleStatusResult 500 = .deviceRejected 500 :=
  (C7_amended 500).2.2 (by decide)

/-! ## C4: snapshot merge precedence -/

lemma find?_append (l1 l2 : List (String × String)) (p : String × String → Bool) :
    (l1 ++ l2).find? p = match l1.find? p with
      | some v => some v
      | none => l2.find? p := by
  induction l1 with
  | nil => rfl
  | cons x t ih =>
    by_cases hx : p x
    · simp [List.find?, hx]
    · simp only [List.cons_append, List.find?, hx]
      exact ih

lemma lookupLast_cons (x : String × String) (t : List (String × String)) (k : String) :
    lookupLast (x :: t) k = match lookupLast t k with
      | some v => some v
      | none => if x.1 = k then some x.2 else none := by
  unfold lookupLast
  rw [List.reverse_cons, find?_append]
  cases h : List.find? (fun p => p.1 == k) t.reverse with
  | some v => simp [h]
  | none =>
    simp only [h, Option.map_none']
    by_cases hx : x.1 = k
    · have hb : (x.1 == k) = true := beq_iff_eq.mpr hx
      simp [List.find?, hb, hx]
    · have hb : (x.1 == k) = false := beq_eq_false_iff_ne.mpr hx
      simp [List.find?, hb, hx]

lemma foldl_mapSet_eq (l : List (String × String)) (m : String → Option String) (k : String) :
    l.foldl mapSet m k = match lookupLast l k with
      | some v => some v
      | none => m k := by
  induction l generalizing m with
  | nil => simp [lookupLast]
  | cons x t ih =>
    rw [List.foldl_cons, ih, lookupLast_cons]
    cases hL : lookupLast t k with
    | some v => rfl
    | none =>
      simp only
      show mapSet m x k = _
      unfold mapSet
      by_cases hx : x.1 = k
      · rw [if_pos hx.symm, if_pos hx]
      · rw [if_neg (fun hk => hx hk.symm), if_neg hx]

/-- C4: the four sections are merged into one mapping in the order integer,
string, floating, enumerated, a later section overwriting an earlier one for a
shared identifier (the merged map is the last binding of the concatenated
sections); in particular a document with X in the integer section (value "1")
and in the enumerated section (value "2") yields X ↦ "2". -/
theorem C4_merge_precedence :
    (∀ (doc : RD5Doc) (k : String),
      (ParseXMLData doc).Items k =
        lookupLast (doc.integerR ++ doc.stringR ++ doc.floatR ++ doc.enumR) k) ∧
    (ParseXMLData precedenceDoc).Items "X" = some "2" := by
  constructor
  · intro doc k
    have hItems : (ParseXMLData doc).Items =
        (doc.integerR ++ doc.stringR ++ doc.floatR ++ doc.enumR).foldl mapSet (fun _ => none) := by
      simp [ParseXMLData, List.foldl_append]
    rw [hItems, foldl_mapSet_eq]
    cases lookupLast (doc.integerR ++ doc.stringR ++ doc.floatR ++ doc.enumR) k <;> rfl
  · decide

/-! ## C2: authentication token extraction (corrected) -/

set_option maxRecDepth 100000 in
/-- C2 (amended): for every login response body, the inner text of the root
element is accepted exactly when it is non-empty, not "0", not "denied", and
accepted by the integer parse (fully numeric and within the 64-bit signed
range); an accepted token is returned and stored, and in every other case —
including a body containing literal denied and a body with no root element —
Authenticate fails and the stored session state is unchanged.  The body
carrying 15736 yields the token "15736". -/
theorem C2_login_amended (wc : WebClient) (body : String) :
    (∀ sid, rootInnerText body = some sid →
      (validSessionID sid = true ↔
        sid ≠ "" ∧ sid ≠ "0" ∧ sid ≠ "denied" ∧ (goAtoi sid.toList).2 = none)) ∧
    (∀ sid, extractSessionID body = some sid →
      Login wc body = (.ok sid, ⟨wc.baseURL, sid⟩)) ∧
    (extractSessionID body = none → Login wc body = (.authenticationError, wc)) ∧
    Login wc "<?xml version=\"1.0\"?><root lng=\"0\">15736</root>" =
      (.ok "15736", ⟨wc.baseURL, "15736"⟩) ∧
    Login wc "<?xml version=\"1.0\"?><root lng=\"0\">denied</root>" = (.authenticationError, wc) ∧
    Login wc "access denied" = (.authenticationError, wc) ∧
    Login wc "<html>no root element here</html>" = (.authenticationError, wc) := by
  refine ⟨fun sid _ => ?_, fun sid h => ?_, fun h => ?_, ?_, ?_, ?_, ?_⟩
  · simp [validSessionID, and_assoc]
  · simp [Login, h]
  · simp [Login, h]
  · have h : extractSessionID "<?xml version=\"1.0\"?><root lng=\"0\">15736</root>" =
        some "15736" := by decide
    simp [Login, h]
  · have h : extractSessionID "<?xml version=\"1.0\"?><root lng=\"0\">denied</root>" =
        none := by decide
    simp [Login, h]
  · have h : extractSessionID "access denied" = none := by decide
    simp [Login, h]
  · have h : extractSessionID "<html>no root element here</html>" = none := by decide
    simp [Login, h]

/-- Witness for C2 at a concrete client and the sample body. -/
theorem C2_witness :
    Login ⟨"http://192.168.68.106", ""⟩ "<?xml version=\"1.0\"?><root lng=\"0\">15736</root>" =
      (.ok "15736", ⟨"http://192.168.68.106", "15736"⟩) :=
  (C2_login_amended ⟨"http://192.168.68.106", ""⟩
    "<?xml version=\"1.0\"?><root lng=\"0\">15736</root>").2.2.2.1

set_option maxRecDepth 100000 in
/-- C2 counterexample: the body whose root inner text is the fully numeric
20-digit string 99999999999999999999 (non-empty, not "0", not "denied")
nevertheless fails authentication, because strconv.Atoi rejects values beyond
the 64-bit signed range; the claim as stated would require this login to
succeed with that token. -/
theorem C2_counterexample :
    rootInnerText "<root lng=\"0\">99999999999999999999</root>" =
      some "99999999999999999999" ∧
    "99999999999999999999" ≠ "" ∧
    "99999999999999999999" ≠ "0" ∧
    "99999999999999999999" ≠ "denied" ∧
    allDigits "99999999999999999999".toList = true ∧
    Login ⟨"http://192.168.68.106", ""⟩ "<root lng=\"0\">99999999999999999999</root>" =
      (.authenticationError, ⟨"http://192.168.68.106", ""⟩) := by
  decide

/-! ## C8: SetValue panics without an equals sign -/

lemma goSplitChar_ne_nil (sep : Char) (l : List Char) : goSplitChar sep l ≠ [] := by
  cases l with
  | nil => simp [goSplitChar]
  | cons c rest =>
    unfold goSplitChar
    by_cases h : c = sep
    · simp [h]
    · simp only [if_neg h]
      cases goSplitChar sep rest <;> simp

lemma goSplitChar_length (sep : Char) (l : List Char) :
    (goSplitChar sep l).length = l.count sep + 1 := by
  induction l with
  | nil => simp [goSplitChar]
  | cons c rest ih =>
    unfold goSplitChar
    by_cases h : c = sep
    · have hb : (sep == c) = true := beq_iff_eq.mpr h.symm
      simp [h, List.count_cons, hb, ih]
    · have hb : (sep == c) = false := beq_eq_false_iff_ne.mpr fun hh => h hh.symm
      simp only [if_neg h]
      cases hg : goSplitChar sep rest with
      | nil => exact absurd hg (goSplitChar_ne_nil sep rest)
      | cons g gs =>
        have hlen := ih
        rw [hg] at hlen
        simp only [List.length_cons] at hlen
        simp [List.count_cons, hb, hlen, h]

lemma goSplitChar_of_not_mem (sep : Char) (l : List Char) (h : sep ∉ l) :
    goSplitChar sep l = [l] := by
  induction l with
  | nil => rfl
  | cons c rest ih =>
    have hc : ¬ c = sep := by
      intro hh
      exact h (by rw [hh]; exact List.mem_cons_self _ _)
    have hr : sep ∉ rest := fun hh => h (List.mem_cons_of_mem c hh)
    unfold goSplitChar
    rw [if_neg hc, ih hr]

/-- C8: SetValue's query construction is defined exactly on parameter strings
containing at least one equals sign: with no equals sign the split on the
separator yields the one-element list and indexing element 1 is out of bounds,
so SetValue panics (modelled as the absent query) instead of returning an
error result. -/
theorem C8_setValue_panic (auth p : String) :
    ('=' ∉ p.toList → goSplitChar '=' p.toList = [p.toList] ∧ setValueQuery auth p = none) ∧
    ('=' ∈ p.toList → ∃ q, setValueQuery auth p = some q) := by
  constructor
  · intro h
    have hs := goSplitChar_of_not_mem '=' p.toList h
    refine ⟨hs, ?_⟩
    unfold setValueQuery
    rw [hs]
    rfl
  · intro h
    have hcount : 0 < p.toList.count '=' := List.count_pos_iff.mpr h
    have hlen : 2 ≤ (goSplitChar '=' p.toList).length := by
      rw [goSplitChar_length]
      omega
    cases hg : (goSplitChar '=' p.toList).get? 1 with
    | none =>
      rw [List.get?_eq_none] at hg
      omega
    | some p1 =>
      refine ⟨setKV (setKV (fun _ => none) "auth" auth)
        (String.mk ((goSplitChar '=' p.toList).getD 0 [])) (String.mk p1), ?_⟩
      unfold setValueQuery
      simp only [List.get?_eq_getElem?, String.toList] at hg
      simp [hg]

/-- Witness for C8: a parameter without an equals sign panics, one with it
builds a query. -/
theorem C8_witness :
    setValueQuery "15736" "C10005" = none ∧
    (∃ q, setValueQuery "15736" "H11021=21" = some q) :=
  ⟨((C8_setValue_panic "15736" "C10005").1 (by decide)).2,
   (C8_setValue_panic "15736" "H11021=21").2 (by decide)⟩

/-! ## C10: SetMultipleValues silently drops malformed pairs -/

lemma foldl_filter_of_skip {α β : Type} (f : β → α → β) (pred : α → Bool)
    (hf : ∀ b a, pred a = false → f b a = b) :
    ∀ (l : List α) (b : β), l.foldl f b = (l.filter pred).foldl f b := by
  intro l
  induction l with
  | nil => intro b; rfl
  | cons x t ih =>
    intro b
    by_cases hx : pred x
    · rw [List.foldl_cons, List.filter_cons_of_pos hx, List.foldl_cons, ih]
    · have hx' : pred x = false := by simpa using hx
      rw [List.foldl_cons, hf b x hx', List.filter_cons_of_neg (by simp [hx']), ih]

/-- C10: every batched-write list entry that does not split into exactly two
equals-separated parts is dropped from the query without an error (the built
query equals the query built from the well-formed entries alone), while
well-formed pairs in the same call are still sent. -/
theorem C10_setMultiple_drops_malformed (auth : String) (parameters : List String) :
    setMultipleQuery auth parameters =
      setMultipleQuery auth
        (parameters.filter fun p => (goSplitChar '=' p.toList).length == 2) ∧
    setMultipleQuery auth ["H11021=21", "bad", "H11017=1"] =
      setMultipleQuery auth ["H11021=21", "H11017=1"] ∧
    setMultipleQuery auth ["H11021=21", "bad", "H11017=1"] "H11021" = some "21" ∧
    setMultipleQuery auth ["H11021=21", "bad", "H11017=1"] "H11017" = some "1" ∧
    setMultipleQuery auth ["H11021=21", "bad", "H11017=1"] "auth" = some auth ∧
    setMultipleQuery auth ["H11021=21", "bad", "H11017=1"] "bad" = none := by
  refine ⟨?_, rfl, rfl, rfl, rfl, rfl⟩
  unfold setMultipleQuery
  exact foldl_filter_of_skip _ _
    (fun b a ha => by
      simp only
      rw [if_neg (by simpa using ha)])
    parameters _

/-! ## C9: IP encoder error behaviour (corrected) -/

lemma goAtoiCore_spec (neg : Bool) (r : Nat × Option NumErr) :
    ((goAtoiCore neg r).2 = some .errSyn → (goAtoiCore neg r).1 = 0) ∧
    ((goAtoiCore neg r).2 = some .errRange →
      (goAtoiCore neg r).1 = 9223372036854775807 ∨
        (goAtoiCore neg r).1 = -9223372036854775808) := by
  unfold goAtoiCore
  rcases r with ⟨v, e⟩
  rcases e with _ | e
  · simp only
    split_ifs <;> simp
  · cases e
    · simp
    · simp only
      split_ifs <;> simp

/-- C9 (amended): for every input that does not split into exactly four
dot-separated parts, the IP encoder returns an absent result with a nil error
and never signals a failure; within a four-part input an octet whose parse
fails with a syntax error is silently encoded as 0, while an octet whose parse
fails with a range error is encoded as the clamped 64-bit extreme, not 0. -/
theorem C9_encoder_amended :
    (∀ ip : String, (goSplitChar '.' ip.toList).length ≠ 4 →
      IPParameterEncoder ip = (none, none)) ∧
    (∀ p : List Char, (goAtoi p).2 = some .errSyn → (goAtoi p).1 = 0) ∧
    (∀ p : List Char, (goAtoi p).2 = some .errRange →
      (goAtoi p).1 = 9223372036854775807 ∨ (goAtoi p).1 = -9223372036854775808) ∧
    IPParameterEncoder "1.x.3.4" = (some ⟨"1", "1027"⟩, none) ∧
    (goAtoi "x".toList).2 = some .errSyn := by
  refine ⟨fun ip h => ?_, fun p h => ?_, fun p h => ?_, by decide, by decide⟩
  · unfold IPParameterEncoder
    rw [if_pos h]
  · exact (goAtoiCore_spec (goAtoiSign p).1 (goParseUint (goAtoiSign p).2)).1 h
  · exact (goAtoiCore_spec (goAtoiSign p).1 (goParseUint (goAtoiSign p).2)).2 h

/-- Witness for C9: a three-part input yields the absent result with nil
error, and the unparseable octet of 1.x.3.4 is encoded as 0. -/
theorem C9_witness :
    IPParameterEncoder "1.2.3" = (none, none) ∧ (goAtoi "x".toList).1 = 0 :=
  ⟨C9_encoder_amended.1 "1.2.3" (by decide),
   C9_encoder_amended.2.1 "x".toList (by decide)⟩

set_option maxRecDepth 100000 in
/-- C9 counterexample: in the four-part input 9223372036854775808.0.0.0 the
first octet fails integer parsing (range error), yet it is encoded as the
clamped value 9223372036854775807 rather than 0, so not every failing octet is
encoded as 0. -/
theorem C9_counterexample :
    (goAtoi "9223372036854775808".toList).2 = some .errRange ∧
    IPParameterEncoder "9223372036854775808.0.0.0" =
      (some ⟨"9223372036854775807", "0"⟩, none) ∧
    "9223372036854775807" ≠ "0" := by
  decide

/-! ## C6: current-temperature candidate lookup -/

lemma firstTempReading_all_absent (d : DeviceData) (l : List String)
    (h : ∀ id ∈ l, d.Items id = none) : firstTempReading d l = none := by
  induction l with
  | nil => rfl
  | cons x t ih =>
    unfold firstTempReading
    rw [h x (List.mem_cons_self x t)]
    exact ih fun id hid => h id (List.mem_cons_of_mem x hid)

lemma firstTempReading_first_present (d : DeviceData) (pre post : List String) (id v : String)
    (q : ℚ) (hpre : ∀ j ∈ pre, d.Items j = none) (hid : d.Items id = some v)
    (hv : parseGoFloat v = some q) :
    firstTempReading d (pre ++ id :: post) = some q := by
  induction pre with
  | nil =>
    show firstTempReading d (id :: post) = some q
    unfold firstTempReading
    rw [hid]
    simp [hv]
  | cons x t ih =>
    show firstTempReading d (x :: (t ++ id :: post)) = some q
    unfold firstTempReading
    rw [hpre x (List.mem_cons_self x t)]
    exact ih fun j hj => hpre j (List.mem_cons_of_mem x hj)

/-- C6: currentTemperature tries the ordered candidate list and returns the
decoded reading of the first candidate present (with a readable value) in the
snapshot, and returns 0 when no candidate is present; for the snapshot parsed
from the sample document the snapshot maps I10215 to "201" and
currentTemperature returns 20.1. -/
theorem C6_current_temperature :
    (∀ d : DeviceData, (∀ id ∈ tempIDs, d.Items id = none) → GetCurrentTemperature d = 0) ∧
    (∀ (d : DeviceData) (pre post : List String) (id v : String) (q : ℚ),
      tempIDs = pre ++ id :: post → (∀ j ∈ pre, d.Items j = none) →
      d.Items id = some v → parseGoFloat v = some q →
      GetCurrentTemperature d = decodeTemperature q) ∧
    (ParseXMLData sampleDoc).Items "I10215" = some "201" ∧
    GetCurrentTemperature (ParseXMLData sampleDoc) = 201 / 10 := by
  refine ⟨fun d h => ?_, fun d pre post id v q ht hpre hid hv => ?_, by decide, ?_⟩
  · unfold GetCurrentTemperature
    rw [firstTempReading_all_absent d tempIDs h]
  · unfold GetCurrentTemperature
    rw [ht, firstTempReading_first_present d pre post id v q hpre hid hv]
  · have h1 : (ParseXMLData sampleDoc).Items "I10215" = some "201" := by decide
    have h2 : parseGoFloat "201" = some ((201 : ℕ) : ℚ) := rfl
    have h3 : GetCurrentTemperature (ParseXMLData sampleDoc) =
        decodeTemperature ((201 : ℕ) : ℚ) := by
      unfold GetCurrentTemperature
      rw [show tempIDs = [] ++ "I10215" :: ["I10222", "I10224", "I10225", "I10249"] from rfl,
        firstTempReading_first_present _ _ _ _ _ _ (by simp) h1 h2]
    rw [h3, decodeTemperature_natCast]
    norm_num

/-- Witness for C6: the second conjunct applied to the sample snapshot with
I10215 as the first candidate. -/
theorem C6_witness :
    GetCurrentTemperature (ParseXMLData sampleDoc) = decodeTemperature ((201 : ℕ) : ℚ) :=
  C6_current_temperature.2.1 (ParseXMLData sampleDoc) []
    ["I10222", "I10224", "I10225", "I10249"] "I10215" "201" ((201 : ℕ) : ℚ)
    rfl (by simp) (by decide) rfl

/-! ## C5: IPv4 encode/decode round trip -/

lemma natReprAux_fuel_irrel : ∀ f1 f2 n : Nat, n < f1 → n < f2 →
    natReprAux f1 n = natReprAux f2 n := by
  intro f1
  induction f1 with
  | zero => intro f2 n h1 h2; exact absurd h1 (Nat.not_lt_zero n)
  | succ f ih =>
    intro f2 n h1 h2
    cases f2 with
    | zero => exact absurd h2 (Nat.not_lt_zero n)
    | succ g =>
      unfold natReprAux
      by_cases hn : n < 10
      · rw [if_pos hn, if_pos hn]
      · have hdlt : n / 10 < n := Nat.div_lt_self (by omega) (by omega)
        rw [if_neg hn, if_neg hn, ih g (n / 10) (by omega) (by omega)]

lemma natRepr_eq (n : Nat) :
    natRepr n = if n < 10 then [digitChar n]
      else natRepr (n / 10) ++ [digitChar (n % 10)] := by
  show natReprAux (n + 1) n = _
  unfold natReprAux
  by_cases hn : n < 10
  · rw [if_pos hn, if_pos hn]
  · have hdlt : n / 10 < n := Nat.div_lt_self (by omega) (by omega)
    rw [if_neg hn, if_neg hn,
      natReprAux_fuel_irrel n (n / 10 + 1) (n / 10) (by omega) (by omega)]
    rfl

lemma digitChar_spec (e : Nat) (h : e < 10) :
    (digitChar e).isDigit = true ∧ (digitChar e).toNat = 48 + e ∧
    digitChar e ≠ '.' ∧ digitChar e ≠ '+' ∧ digitChar e ≠ '-' := by
  interval_cases e <;> exact ⟨by decide, by decide, by decide, by decide, by decide⟩

lemma natRepr_digits (n : Nat) : ∀ ch ∈ natRepr n, ∃ e, e < 10 ∧ ch = digitChar e := by
  induction n using Nat.strong_induction_on with
  | _ n ih =>
    rw [natRepr_eq]
    by_cases hn : n < 10
    · rw [if_pos hn]
      intro ch hch
      rw [List.mem_singleton] at hch
      exact ⟨n, hn, hch⟩
    · rw [if_neg hn]
      intro ch hch
      rcases List.mem_append.mp hch with h | h
      · exact ih (n / 10) (Nat.div_lt_self (by omega) (by omega)) ch h
      · rw [List.mem_singleton] at h
        exact ⟨n % 10, Nat.mod_lt n (by omega), h⟩

lemma natRepr_ne_nil (n : Nat) : natRepr n ≠ [] := by
  rw [natRepr_eq]
  by_cases hn : n < 10
  · rw [if_pos hn]; simp
  · rw [if_neg hn]; simp

lemma parseUintLoop_append (xs ys : List Char) (acc m : Nat)
    (h : parseUintLoop xs acc = (m, none)) :
    parseUintLoop (xs ++ ys) acc = parseUintLoop ys m := by
  induction xs generalizing acc with
  | nil =>
    unfold parseUintLoop at h
    injection h with h1 _
    rw [List.nil_append, h1]
  | cons ch t ih =>
    by_cases hd : ch.isDigit
    · by_cases ho : maxUint64 < acc * 10 + (ch.toNat - 48)
      · unfold parseUintLoop at h
        rw [if_pos hd, if_pos ho] at h
        exact absurd h (by simp)
      · unfold parseUintLoop at h
        rw [if_pos hd, if_neg ho] at h
        rw [List.cons_append]
        show (if ch.isDigit then
            if maxUint64 < acc * 10 + (ch.toNat - 48) then (maxUint64, some NumErr.errRange)
            else parseUintLoop (t ++ ys) (acc * 10 + (ch.toNat - 48))
          else (0, some NumErr.errSyn)) = parseUintLoop ys m
        rw [if_pos hd, if_neg ho]
        exact ih _ h
    · unfold parseUintLoop at h
      rw [if_neg hd] at h
      exact absurd h (by simp)

lemma parseUintLoop_natRepr (n : Nat) :
    ∀ acc : Nat, acc * 10 ^ (natRepr n).length + n ≤ maxUint64 →
      parseUintLoop (natRepr n) acc = (acc * 10 ^ (natRepr n).length + n, none) := by
  induction n using Nat.strong_induction_on with
  | _ n ih =>
    intro acc h
    by_cases hn : n < 10
    · rw [natRepr_eq, if_pos hn] at h ⊢
      simp only [List.length_singleton, pow_one] at h ⊢
      have hdig := digitChar_spec n hn
      have ht : (digitChar n).toNat - 48 = n := by rw [hdig.2.1]; omega
      unfold parseUintLoop
      rw [if_pos hdig.1, ht, if_neg (by omega)]
      unfold parseUintLoop
      rfl
    · rw [natRepr_eq, if_neg hn] at h ⊢
      simp only [List.length_append, List.length_singleton] at h ⊢
      rw [pow_succ] at h ⊢
      have hmul : acc * (10 ^ (natRepr (n / 10)).length * 10) =
          acc * 10 ^ (natRepr (n / 10)).length * 10 := by ring
      rw [hmul] at h ⊢
      have hpre : acc * 10 ^ (natRepr (n / 10)).length + n / 10 ≤ maxUint64 := by omega
      have hfst := ih (n / 10) (Nat.div_lt_self (by omega) (by omega)) acc hpre
      rw [parseUintLoop_append _ _ _ _ hfst]
      have hdig := digitChar_spec (n % 10) (Nat.mod_lt n (by omega))
      have ht : (digitChar (n % 10)).toNat - 48 = n % 10 := by rw [hdig.2.1]; omega
      unfold parseUintLoop
      rw [if_pos hdig.1, ht, if_neg (by omega)]
      unfold parseUintLoop
      have : (acc * 10 ^ (natRepr (n / 10)).length + n / 10) * 10 + n % 10 =
          acc * 10 ^ (natRepr (n / 10)).length * 10 + n := by omega
      rw [this]

lemma goParseUint_natRepr (n : Nat) (h : n ≤ maxUint64) :
    goParseUint (natRepr n) = (n, none) := by
  have hl := parseUintLoop_natRepr n 0 (by simpa using h)
  simp only [zero_mul, zero_add] at hl
  cases hr : natRepr n with
  | nil => exact absurd hr (natRepr_ne_nil n)
  | cons ch t =>
    rw [hr] at hl
    unfold goParseUint
    exact hl

lemma goAtoi_natRepr (n : Nat) (h : n ≤ 9223372036854775807) :
    goAtoi (natRepr n) = ((n : Int), none) := by
  have hsign : goAtoiSign (natRepr n) = (false, natRepr n) := by
    cases hr : natRepr n with
    | nil => exact absurd hr (natRepr_ne_nil n)
    | cons ch t =>
      rcases natRepr_digits n ch (hr ▸ List.mem_cons_self ch t) with ⟨e, he, hce⟩
      show (if ch = '+' then (false, t) else if ch = '-' then (true, t)
        else (false, ch :: t)) = (false, ch :: t)
      rw [if_neg (by rw [hce]; exact (digitChar_spec e he).2.2.2.1),
        if_neg (by rw [hce]; exact (digitChar_spec e he).2.2.2.2)]
  unfold goAtoi
  rw [hsign]
  show goAtoiCore false (goParseUint (natRepr n)) = ((n : Int), none)
  rw [goParseUint_natRepr n (by unfold maxUint64; omega)]
  have hlt : ¬ (9223372036854775808 ≤ n) := by omega
  simp [goAtoiCore, hlt]

lemma goSplitChar_append (sep : Char) (xs ys : List Char) (h : sep ∉ xs) :
    goSplitChar sep (xs ++ sep :: ys) = xs :: goSplitChar sep ys := by
  induction xs with
  | nil =>
    show goSplitChar sep (sep :: ys) = [] :: goSplitChar sep ys
    simp only [goSplitChar, if_true, reduceIte]
  | cons ch t ih =>
    have hc : ¬ ch = sep := by
      intro hh
      exact h (by rw [hh]; exact List.mem_cons_self _ _)
    have ht : sep ∉ t := fun hh => h (List.mem_cons_of_mem ch hh)
    show goSplitChar sep (ch :: (t ++ sep :: ys)) = (ch :: t) :: goSplitChar sep ys
    simp only [goSplitChar]
    rw [if_neg hc, ih ht]

lemma wrap64_small (x : Int) (h0 : 0 ≤ x) (h1 : x < 9223372036854775808) : wrap64 x = x := by
  unfold wrap64
  omega

lemma int_land_natCast (m n : Nat) : Int.land (m : Int) (n : Int) = ((m &&& n : Nat) : Int) := rfl

lemma int_shiftRight_natCast (m k : Nat) :
    Int.shiftRight (m : Int) k = ((m >>> k : Nat) : Int) := rfl

lemma octet_extract (x y : Nat) (hx : x ≤ 255) (hy : y ≤ 255) :
    Int.land ((x + y * 256 : Nat) : Int) 255 = (x : Int) ∧
    Int.land (Int.shiftRight ((x + y * 256 : Nat) : Int) 8) 255 = (y : Int) := by
  constructor
  · rw [show (255 : Int) = ((255 : Nat) : Int) from rfl, int_land_natCast]
    norm_cast
    rw [show (255 : Nat) = 2 ^ 8 - 1 from rfl, Nat.and_pow_two_sub_one_eq_mod]
    omega
  · rw [int_shiftRight_natCast, show (255 : Int) = ((255 : Nat) : Int) from rfl,
      int_land_natCast]
    norm_cast
    rw [Nat.shiftRight_eq_div_pow, show (255 : Nat) = 2 ^ 8 - 1 from rfl,
      Nat.and_pow_two_sub_one_eq_mod]
    omega

lemma goItoa_natCast (n : Nat) : goItoa (n : Int) = String.mk (natRepr n) := by
  unfold goItoa
  rw [if_neg (by omega), Int.toNat_natCast]

/-- C5: for every dotted-quad IPv4 string with four octets in [0, 255] (in
canonical decimal form), the encoder produces the pair low = octet1 +
octet2·256, high = octet3 + octet4·256 with no error, and decoding that pair
by masking and shifting recovers the original dotted-quad string:
decode (encode ip) = ip. -/
theorem C5_ip_roundtrip (a b c d : Nat)
    (ha : a ≤ 255) (hb : b ≤ 255) (hc : c ≤ 255) (hd : d ≤ 255) :
    IPParameterEncoder
        (String.mk (natRepr a) ++ "." ++ String.mk (natRepr b) ++ "." ++
          String.mk (natRepr c) ++ "." ++ String.mk (natRepr d)) =
      (some ⟨goItoa ((a + b * 256 : Nat) : Int), goItoa ((c + d * 256 : Nat) : Int)⟩, none) ∧
    IPParameterDecoder ((a + b * 256 : Nat) : Int) ((c + d * 256 : Nat) : Int) =
      String.mk (natRepr a) ++ "." ++ String.mk (natRepr b) ++ "." ++
        String.mk (natRepr c) ++ "." ++ String.mk (natRepr d) := by
  have hdig : ∀ n : Nat, '.' ∉ natRepr n := by
    intro n hmem
    rcases natRepr_digits n '.' hmem with ⟨e, he, heq⟩
    exact (digitChar_spec e he).2.2.1 heq.symm
  constructor
  · have hlist : (String.mk (natRepr a) ++ "." ++ String.mk (natRepr b) ++ "." ++
        String.mk (natRepr c) ++ "." ++ String.mk (natRepr d)).toList =
        natRepr a ++ '.' :: (natRepr b ++ '.' :: (natRepr c ++ '.' :: natRepr d)) := by
      show (String.mk (natRepr a) ++ "." ++ String.mk (natRepr b) ++ "." ++
        String.mk (natRepr c) ++ "." ++ String.mk (natRepr d)).data = _
      simp [String.data_append, List.append_assoc]
    have hsplit : goSplitChar '.'
        (natRepr a ++ '.' :: (natRepr b ++ '.' :: (natRepr c ++ '.' :: natRepr d))) =
        [natRepr a, natRepr b, natRepr c, natRepr d] := by
      rw [goSplitChar_append '.' _ _ (hdig a), goSplitChar_append '.' _ _ (hdig b),
        goSplitChar_append '.' _ _ (hdig c), goSplitChar_of_not_mem '.' _ (hdig d)]
    have hA := goAtoi_natRepr a (by omega)
    have hB := goAtoi_natRepr b (by omega)
    have hC := goAtoi_natRepr c (by omega)
    have hD := goAtoi_natRepr d (by omega)
    unfold IPParameterEncoder
    rw [hlist, hsplit]
    rw [if_neg (by simp)]
    simp only [List.map_cons, List.map_nil, hA, hB, hC, hD, List.getD_cons_zero,
      List.getD_cons_succ]
    have hbi : (0 : Int) ≤ (b : Int) * 256 ∧ (b : Int) * 256 < 9223372036854775808 := by
      constructor
      · positivity
      · have : (b : Int) ≤ 255 := by exact_mod_cast hb
        omega
    have hdi : (0 : Int) ≤ (d : Int) * 256 ∧ (d : Int) * 256 < 9223372036854775808 := by
      constructor
      · positivity
      · have : (d : Int) ≤ 255 := by exact_mod_cast hd
        omega
    rw [wrap64_small _ hbi.1 hbi.2, wrap64_small _ hdi.1 hdi.2]
    have hai : (a : Int) ≤ 255 := by exact_mod_cast ha
    have hci : (c : Int) ≤ 255 := by exact_mod_cast hc
    have hbj : (b : Int) ≤ 255 := by exact_mod_cast hb
    have hdj : (d : Int) ≤ 255 := by exact_mod_cast hd
    rw [wrap64_small ((a : Int) + (b : Int) * 256) (by positivity) (by omega),
      wrap64_small ((c : Int) + (d : Int) * 256) (by positivity) (by omega)]
    have hab : (a : Int) + (b : Int) * 256 = ((a + b * 256 : Nat) : Int) := by push_cast; ring
    have hcd : (c : Int) + (d : Int) * 256 = ((c + d * 256 : Nat) : Int) := by push_cast; ring
    rw [hab, hcd]
  · unfold IPParameterDecoder
    rw [(octet_extract a b ha hb).1, (octet_extract a b ha hb).2,
      (octet_extract c d hc hd).1, (octet_extract c d hc hd).2,
      goItoa_natCast, goItoa_natCast, goItoa_natCast, goItoa_natCast]

/-- Witness for C5 at the address 192.168.1.106. -/
theorem C5_witness :
    IPParameterEncoder "192.168.1.106" = (some ⟨goItoa ((192 + 168 * 256 : Nat) : Int),
      goItoa ((1 + 106 * 256 : Nat) : Int)⟩, none) ∧
    IPParameterDecoder ((192 + 168 * 256 : Nat) : Int) ((1 + 106 * 256 : Nat) : Int) =
      "192.168.1.106" := by
  have h := C5_ip_roundtrip 192 168 1 106 (by decide) (by decide) (by decide) (by decide)
  have hs : String.mk (natRepr 192) ++ "." ++ String.mk (natRepr 168) ++ "." ++
      String.mk (natRepr 1) ++ "." ++ String.mk (natRepr 106) = "192.168.1.106" := by decide
  rw [hs] at h
  exact h
